import Mathlib

/-!
Shallow embedding of the detection-reduction pipeline of `local_mmt.py`
(geometry utilities, the NMS engine, the candidate collector, and the
top-level orchestration), together with theorems settling the frozen
claims about it.

Modelling conventions:
* Python floats are modelled as `ℚ` (exact rationals); all score and IoU
  arithmetic in the source is elementary arithmetic and comparisons, so
  no claim in scope depends on floating-point rounding.
* Bounding boxes are 4-tuples of integers, modelled as a structure.
* A numpy 2-D score surface is a `List (List ℚ)` indexed row-major.
* Fallible code paths (Python exceptions) are modelled with
  `Except String`.
* External collaborators (OpenCV `matchTemplate` and `minMaxLoc`, scipy
  `find_peaks`, skimage `peak_local_max`) are not code of this
  repository; they are injected as explicit function arguments, exactly
  as the spec treats them (black boxes specified only at their
  interface).
-/

/-- A bounding box `(x, y, width, height)` in pixel units, top-left
anchored, as used throughout `local_mmt.py` (Python list `[x, y, w, h]`). -/
structure BBox where
  x : Int
  y : Int
  w : Int
  h : Int
deriving DecidableEq

/-- One candidate detection, as built by `findMatches`: the Python list
`[(templateName), [x, y, width, height], (coeff)]`. -/
structure Hit where
  templateName : String
  bbox : BBox
  score : ℚ
deriving DecidableEq

/-- Translation of `Point_in_Rectangle(Point, Rectangle)` (source lines
254-260): true iff the point lies in the closed pixel extent of the
rectangle. -/
def Point_in_Rectangle (Point : Int × Int) (Rectangle : BBox) : Bool :=
  decide (Rectangle.x ≤ Point.1) && decide (Point.1 ≤ Rectangle.x + Rectangle.w - 1) &&
  decide (Rectangle.y ≤ Point.2) && decide (Point.2 ≤ Rectangle.y + Rectangle.h - 1)

/-- Translation of `computeIoU(BBox1, BBox2)` (source lines 263-314):
inclusive bottom-right corners, a full-containment special case that
returns 1, a degenerate-intersection case that returns 0, and otherwise
intersection area over union area (pixel-inclusive). -/
def computeIoU (BBox1 BBox2 : BBox) : ℚ :=
  let Xright1 := BBox1.x + BBox1.w - 1
  let Ybot1 := BBox1.y + BBox1.h - 1
  let Xright2 := BBox2.x + BBox2.w - 1
  let Ybot2 := BBox2.y + BBox2.h - 1
  let Xleft := max BBox1.x BBox2.x
  let Ytop := max BBox1.y BBox2.y
  let Xright := min Xright1 Xright2
  let Ybot := min Ybot1 Ybot2
  let BBox1_in_BBox2 :=
    Point_in_Rectangle (BBox1.x, BBox1.y) BBox2 && Point_in_Rectangle (BBox1.x, Ybot1) BBox2 &&
    Point_in_Rectangle (Xright1, BBox1.y) BBox2 && Point_in_Rectangle (Xright1, Ybot1) BBox2
  let BBox2_in_BBox1 :=
    Point_in_Rectangle (BBox2.x, BBox2.y) BBox1 && Point_in_Rectangle (BBox2.x, Ybot2) BBox1 &&
    Point_in_Rectangle (Xright2, BBox2.y) BBox1 && Point_in_Rectangle (Xright2, Ybot2) BBox1
  if BBox1_in_BBox2 || BBox2_in_BBox1 then 1
  else if Xright < Xleft ∨ Ybot < Ytop then 0
  else
    let Inter : Int := (Xright - Xleft + 1) * (Ybot - Ytop + 1)
    let Union : Int := BBox1.w * BBox1.h + BBox2.w * BBox2.h - Inter
    (Inter : ℚ) / (Union : ℚ)

/-- Threshold filter of `NMS` (source lines 348-356): with no threshold
keep everything; otherwise keep scores at or above the threshold when
sorting descending, at or below it when sorting ascending. -/
def threshFilterStep (scoreThreshold : Option ℚ) (sortAscending : Bool) (tableHit : List Hit) :
    List Hit :=
  match scoreThreshold with
  | none => tableHit
  | some thr =>
    if !sortAscending then tableHit.filter (fun h => decide (thr ≤ h.score))
    else tableHit.filter (fun h => decide (h.score ≤ thr))

/-- The comparison on hits used by the score-column `argsort` of `NMS`. -/
def scoreLE (a b : Hit) : Prop := a.score ≤ b.score

instance : DecidableRel scoreLE := fun a b => inferInstanceAs (Decidable (a.score ≤ b.score))

instance : IsTotal Hit scoreLE := ⟨fun a b => le_total a.score b.score⟩

instance : IsTrans Hit scoreLE := ⟨fun _ _ _ h1 h2 => le_trans h1 h2⟩

/-- Ranking step of `NMS` (source lines 363-366):
`threshTable[threshTable[:,2].argsort()]` for ascending order and
`threshTable[threshTable[:,2].argsort()[::-1]]` for descending order.
The numpy `argsort` on the score column is modelled as a stable sort
(numpy's default sort runs its stable insertion-sort path on the small
arrays in scope); the descending case reverses the ascending
permutation, exactly as `[::-1]` does. -/
def rankStep (sortAscending : Bool) (threshTable : List Hit) : List Hit :=
  if sortAscending then List.insertionSort scoreLE threshTable
  else (List.insertionSort scoreLE threshTable).reverse

/-- The `len(outTable) < N_object` test of the `NMS` while loop, where
`none` models `N_object = float("inf")`. -/
def lenLtN (outTable : List BBox) (N_object : Option Nat) : Bool :=
  match N_object with
  | none => true
  | some n => decide (outTable.length < n)

/-- The greedy while loop of `NMS` (source lines 376-418).  The loop
state is `outTable` (accepted boxes) and `restTable` (boxes still to be
tested); both hold bare bounding boxes because the source projects
column 1 before the loop.  A candidate is appended iff its IoU with
every accepted box is at most `maxOverlap` (the source's early `break`
on the first conflict computes exactly this conjunction), and
`np.delete(restTable, np.where(restTable == testHit_dico))` removes
every entry of `restTable` equal to the candidate.  The loop runs at
most `restTable.length` iterations since every iteration removes at
least the candidate itself from `restTable`; the structural `fuel`
argument, always called with `restTable.length`, makes this explicit. -/
def nmsLoop : Nat → List BBox → List BBox → Option Nat → ℚ → List BBox
  | _, outTable, [], _, _ => outTable
  | 0, outTable, _ :: _, _, _ => outTable
  | fuel + 1, outTable, test :: restTail, N_object, maxOverlap =>
    if lenLtN outTable N_object then
      if outTable.all (fun b => decide (computeIoU test b ≤ maxOverlap)) then
        nmsLoop fuel (outTable ++ [test]) (restTail.filter (fun b => decide (b ≠ test)))
          N_object maxOverlap
      else
        nmsLoop fuel outTable (restTail.filter (fun b => decide (b ≠ test))) N_object maxOverlap
    else outTable

/-- Translation of `NMS(tableHit, scoreThreshold, sortAscending,
N_object, maxOverlap)` (source lines 318-420).  On an empty hit table
`np.asarray` has produced a 1-D empty array, and both the threshold
filter (`tableHit[:,2]`) and the sort line index it with two indices,
raising `IndexError`; this is modelled as the error case.  Otherwise the
table is filtered, sorted, projected to its `BBox` column
(`threshTable[0:1,1]` and `threshTable[1:len(threshTable),1]`), and the
greedy loop runs. -/
def NMS (tableHit : List Hit) (scoreThreshold : Option ℚ) (sortAscending : Bool)
    (N_object : Option Nat) (maxOverlap : ℚ) : Except String (List BBox) :=
  if tableHit = [] then Except.error "IndexError: too many indices for array"
  else
    let threshTable := threshFilterStep scoreThreshold sortAscending tableHit
    let sortedTable := rankStep sortAscending threshTable
    let outTable := (sortedTable.take 1).map Hit.bbox
    let restTable := (sortedTable.drop 1).map Hit.bbox
    Except.ok (nmsLoop restTable.length outTable restTable N_object maxOverlap)

/-- The numpy dtypes distinguished by `computeScoreMap`. -/
inductive Dtype
  | u8
  | f32
  | f64
  | other
deriving DecidableEq

/-- The data of a numpy image array that the pipeline inspects: its
dtype and its 2-D shape (`rows = shape[0]` is the height, `cols =
shape[1]` the width).  Pixel values are irrelevant to the claims in
scope; they are consumed only by the injected external similarity
function. -/
structure NpImage where
  dtype : Dtype
  rows : Nat
  cols : Nat
deriving DecidableEq

/-- Translation of `computeScoreMap(template, image, method)` (source
lines 48-63): reject 64-bit inputs, convert to float32 unless both are
8-bit, then call the external `cv2.matchTemplate`, here the injected
argument `matchTemplate`. -/
def computeScoreMap (matchTemplate : NpImage → NpImage → Nat → List (List ℚ))
    (template image : NpImage) (method : Nat) : Except String (List (List ℚ)) :=
  if template.dtype = Dtype.f64 ∨ image.dtype = Dtype.f64 then
    Except.error "64-bit not supported, max 32-bit"
  else if ¬(template.dtype = Dtype.u8 ∧ image.dtype = Dtype.u8) then
    Except.ok (matchTemplate ⟨Dtype.f32, template.rows, template.cols⟩
      ⟨Dtype.f32, image.rows, image.cols⟩ method)
  else
    Except.ok (matchTemplate template image method)

/-- The search-box crop of `findMatches` (source lines 95-99):
`image[yOffset:yOffset+searchHeight, xOffset:xOffset+searchWidth]`
with Python slice clipping for the non-negative indices in scope,
together with the recorded offsets. -/
def cropImage (image : NpImage) (searchBox : Option (Nat × Nat × Nat × Nat)) :
    NpImage × Nat × Nat :=
  match searchBox with
  | none => (image, 0, 0)
  | some (xOffset, yOffset, searchWidth, searchHeight) =>
    (⟨image.dtype, min image.rows (yOffset + searchHeight) - min image.rows yOffset,
      min image.cols (xOffset + searchWidth) - min image.cols xOffset⟩, xOffset, yOffset)

/-- Translation of `_findLocalMax_(corrMap, score_threshold)` (source
lines 11-39): a 1-by-1 surface yields `[(0,0)]` iff its value reaches
the threshold; single-row and single-column surfaces go to the external
1-D peak finder `find1D` (scipy `find_peaks`); the general 2-D case
goes to the external `peakLocalMax` (skimage `peak_local_max`). -/
def findLocalMax (find1D : List ℚ → ℚ → List Nat)
    (peakLocalMax : List (List ℚ) → ℚ → List (Nat × Nat))
    (corrMap : List (List ℚ)) (score_threshold : ℚ) : List (Nat × Nat) :=
  if corrMap.length = 1 ∧ (corrMap.headD []).length = 1 then
    if score_threshold ≤ (corrMap.headD []).headD 0 then [(0, 0)] else []
  else if corrMap.length = 1 then
    (find1D (corrMap.headD []) score_threshold).map (fun i => (0, i))
  else if (corrMap.headD []).length = 1 then
    (find1D (corrMap.map (fun row => row.headD 0)) score_threshold).map (fun i => (i, 0))
  else
    peakLocalMax corrMap score_threshold

/-- Translation of `_findLocalMin_(corrMap, score_threshold)` (source
lines 43-45): negate the surface and the threshold and reuse
`findLocalMax`. -/
def findLocalMin (find1D : List ℚ → ℚ → List Nat)
    (peakLocalMax : List (List ℚ) → ℚ → List (Nat × Nat))
    (corrMap : List (List ℚ)) (score_threshold : ℚ) : List (Nat × Nat) :=
  findLocalMax find1D peakLocalMax (corrMap.map (fun row => row.map (fun v => -v)))
    (-score_threshold)

/-- The lookup `corrMap[tuple(peak)]` of `findMatches` (source line
136), raising `IndexError` when the coordinate is outside the surface. -/
def surfaceGet (corrMap : List (List ℚ)) (peak : Nat × Nat) : Except String ℚ :=
  match corrMap[peak.1]? with
  | none => Except.error "IndexError: index out of bounds"
  | some row =>
    match row[peak.2]? with
    | none => Except.error "IndexError: index out of bounds"
    | some v => Except.ok v

/-- The peak-selection branch of `findMatches` (source lines 108-124):
with `N_object == 1` take the global minimum location (method 1) or
maximum location (methods 3 and 5) from the external `cv2.minMaxLoc`
(the injected `minMaxLoc`, returning `(minVal, maxVal, minLoc, maxLoc)`
with locations as `(x, y)`, reversed by the source into `(row, col)`);
otherwise run the local minima or maxima finder.  For any other method
no branch assigns `Peaks`, and the subsequent `for peak in Peaks` raises
`NameError`. -/
def peaksSelect (minMaxLoc : List (List ℚ) → ℚ × ℚ × (Nat × Nat) × (Nat × Nat))
    (find1D : List ℚ → ℚ → List Nat)
    (peakLocalMax : List (List ℚ) → ℚ → List (Nat × Nat))
    (corrMap : List (List ℚ)) (method : Nat) (N_object : Option Nat)
    (score_threshold : ℚ) : Except String (List (Nat × Nat)) :=
  if N_object = some 1 then
    let r := minMaxLoc corrMap
    if method = 1 then Except.ok [(r.2.2.1.2, r.2.2.1.1)]
    else if method = 3 ∨ method = 5 then Except.ok [(r.2.2.2.2, r.2.2.2.1)]
    else Except.error "NameError: name Peaks is not defined"
  else
    if method = 1 then Except.ok (findLocalMin find1D peakLocalMax corrMap score_threshold)
    else if method = 3 ∨ method = 5 then
      Except.ok (findLocalMax find1D peakLocalMax corrMap score_threshold)
    else Except.error "NameError: name Peaks is not defined"

/-- One iteration of the per-template loop of `findMatches` (source
lines 102-140): compute the score surface, select the peaks, and append
one hit `[(templateName), [col+xOffset, row+yOffset, width, height],
(coeff)]` per peak, where `(height, width) = template.shape[0:2]`. -/
def processTemplate (matchTemplate : NpImage → NpImage → Nat → List (List ℚ))
    (minMaxLoc : List (List ℚ) → ℚ × ℚ × (Nat × Nat) × (Nat × Nat))
    (find1D : List ℚ → ℚ → List Nat)
    (peakLocalMax : List (List ℚ) → ℚ → List (Nat × Nat))
    (image : NpImage) (xOffset yOffset : Nat) (method : Nat) (N_object : Option Nat)
    (score_threshold : ℚ) (listHit : List Hit) (tpl : String × NpImage) :
    Except String (List Hit) := do
  let corrMap ← computeScoreMap matchTemplate tpl.2 image method
  let peaks ← peaksSelect minMaxLoc find1D peakLocalMax corrMap method N_object score_threshold
  peaks.foldlM
    (fun acc peak => do
      let coeff ← surfaceGet corrMap peak
      Except.ok (acc ++ [⟨tpl.1,
        ⟨(peak.2 : Int) + (xOffset : Int), (peak.1 : Int) + (yOffset : Int),
          (tpl.2.cols : Int), (tpl.2.rows : Int)⟩, coeff⟩]))
    listHit

/-- Translation of `findMatches(listTemplates, image, method, N_object,
score_threshold, searchBox)` (source lines 66-142): validate `N_object`,
crop the image to the optional search box, then process every template
in order, accumulating the hit list.  (`float("inf") < 1` is false in
Python, so the `none` case passes the validation.) -/
def findMatches (matchTemplate : NpImage → NpImage → Nat → List (List ℚ))
    (minMaxLoc : List (List ℚ) → ℚ × ℚ × (Nat × Nat) × (Nat × Nat))
    (find1D : List ℚ → ℚ → List Nat)
    (peakLocalMax : List (List ℚ) → ℚ → List (Nat × Nat))
    (listTemplates : List (String × NpImage)) (image : NpImage) (method : Nat)
    (N_object : Option Nat) (score_threshold : ℚ)
    (searchBox : Option (Nat × Nat × Nat × Nat)) : Except String (List Hit) :=
  if (match N_object with | some n => decide (n < 1) | none => false) then
    Except.error "At least one object should be expected in the image"
  else
    let cropped := cropImage image searchBox
    listTemplates.foldlM
      (processTemplate matchTemplate minMaxLoc find1D peakLocalMax cropped.1 cropped.2.1
        cropped.2.2 method N_object score_threshold)
      []

/-- Translation of `matchTemplates(...)` (source lines 145-182):
validate `maxOverlap`, call `findMatches`, then `NMS` with
`sortAscending` selected by the method; for a method outside `{1, 3,
5}` the variable `bestHits` is never assigned and the final `return
bestHits` raises `NameError` (unreachable in practice, since
`findMatches` has already raised for such a method). -/
def matchTemplates (matchTemplate : NpImage → NpImage → Nat → List (List ℚ))
    (minMaxLoc : List (List ℚ) → ℚ × ℚ × (Nat × Nat) × (Nat × Nat))
    (find1D : List ℚ → ℚ → List Nat)
    (peakLocalMax : List (List ℚ) → ℚ → List (Nat × Nat))
    (listTemplates : List (String × NpImage)) (image : NpImage) (method : Nat)
    (N_object : Option Nat) (score_threshold : ℚ) (maxOverlap : ℚ)
    (searchBox : Option (Nat × Nat × Nat × Nat)) : Except String (List BBox) :=
  if maxOverlap < 0 ∨ 1 < maxOverlap then
    Except.error "Maximal overlap between bounding box is in range [0-1]"
  else
    match findMatches matchTemplate minMaxLoc find1D peakLocalMax listTemplates image method
        N_object score_threshold searchBox with
    | Except.error e => Except.error e
    | Except.ok tableHit =>
      if method = 1 then NMS tableHit none true N_object maxOverlap
      else if method = 3 ∨ method = 5 then NMS tableHit none false N_object maxOverlap
      else Except.error "NameError: name bestHits is not defined"

/-- Helper: `computeIoU` is symmetric in its two boxes. -/
theorem computeIoU_comm (A B : BBox) : computeIoU A B = computeIoU B A := by
  obtain ⟨x1, y1, w1, h1⟩ := A
  obtain ⟨x2, y2, w2, h2⟩ := B
  simp only [computeIoU]
  refine if_congr ?_ rfl (if_congr ?_ rfl ?_)
  · rw [Bool.or_comm]
  · constructor <;> (intro hc; omega)
  · rw [min_comm (x1 + w1 - 1) (x2 + w2 - 1), min_comm (y1 + h1 - 1) (y2 + h2 - 1),
      max_comm x1 x2, max_comm y1 y2, add_comm (w1 * h1) (w2 * h2)]

/-- Helper: `computeIoU` always lands in `[0, 1]`.  In the general
branch the non-degenerate intersection forces the intersection width
and height to be at least 1 and at most each box's width and height, so
the intersection area is at least 1 and at most each box area. -/
theorem computeIoU_bounds (A B : BBox) : 0 ≤ computeIoU A B ∧ computeIoU A B ≤ 1 := by
  obtain ⟨x1, y1, w1, h1⟩ := A
  obtain ⟨x2, y2, w2, h2⟩ := B
  simp only [computeIoU]
  split_ifs with hc1 hc2
  · norm_num
  · norm_num
  · push_neg at hc2
    have hiw : (1 : Int) ≤ min (x1 + w1 - 1) (x2 + w2 - 1) - max x1 x2 + 1 := by omega
    have hih : (1 : Int) ≤ min (y1 + h1 - 1) (y2 + h2 - 1) - max y1 y2 + 1 := by omega
    have hiw1 : min (x1 + w1 - 1) (x2 + w2 - 1) - max x1 x2 + 1 ≤ w1 := by omega
    have hiw2 : min (x1 + w1 - 1) (x2 + w2 - 1) - max x1 x2 + 1 ≤ w2 := by omega
    have hih1 : min (y1 + h1 - 1) (y2 + h2 - 1) - max y1 y2 + 1 ≤ h1 := by omega
    have hih2 : min (y1 + h1 - 1) (y2 + h2 - 1) - max y1 y2 + 1 ≤ h2 := by omega
    have hI1 : (1 : Int) ≤ (min (x1 + w1 - 1) (x2 + w2 - 1) - max x1 x2 + 1) *
        (min (y1 + h1 - 1) (y2 + h2 - 1) - max y1 y2 + 1) :=
      one_le_mul_of_one_le_of_one_le hiw hih
    have hIa : (min (x1 + w1 - 1) (x2 + w2 - 1) - max x1 x2 + 1) *
        (min (y1 + h1 - 1) (y2 + h2 - 1) - max y1 y2 + 1) ≤ w1 * h1 :=
      mul_le_mul hiw1 hih1 (by omega) (by omega)
    have hIb : (min (x1 + w1 - 1) (x2 + w2 - 1) - max x1 x2 + 1) *
        (min (y1 + h1 - 1) (y2 + h2 - 1) - max y1 y2 + 1) ≤ w2 * h2 :=
      mul_le_mul hiw2 hih2 (by omega) (by omega)
    constructor
    · apply div_nonneg
      · exact_mod_cast le_trans (by norm_num) hI1
      · have hu : (0 : Int) ≤ w1 * h1 + w2 * h2 -
            (min (x1 + w1 - 1) (x2 + w2 - 1) - max x1 x2 + 1) *
            (min (y1 + h1 - 1) (y2 + h2 - 1) - max y1 y2 + 1) := by linarith
        exact_mod_cast hu
    · rw [div_le_one]
      · have hu : (min (x1 + w1 - 1) (x2 + w2 - 1) - max x1 x2 + 1) *
            (min (y1 + h1 - 1) (y2 + h2 - 1) - max y1 y2 + 1) ≤
            w1 * h1 + w2 * h2 -
            (min (x1 + w1 - 1) (x2 + w2 - 1) - max x1 x2 + 1) *
            (min (y1 + h1 - 1) (y2 + h2 - 1) - max y1 y2 + 1) := by linarith
        exact_mod_cast hu
      · have hu : (0 : Int) < w1 * h1 + w2 * h2 -
            (min (x1 + w1 - 1) (x2 + w2 - 1) - max x1 x2 + 1) *
            (min (y1 + h1 - 1) (y2 + h2 - 1) - max y1 y2 + 1) := by linarith
        exact_mod_cast hu

/-- C6: for all bounding boxes `A` and `B` with positive integer widths
and heights, `computeIoU A B = computeIoU B A` and
`0 ≤ computeIoU A B ≤ 1`. -/
theorem claim_C6_computeIoU_symm_bounded (A B : BBox)
    (hA : 1 ≤ A.w ∧ 1 ≤ A.h) (hB : 1 ≤ B.w ∧ 1 ≤ B.h) :
    computeIoU A B = computeIoU B A ∧ 0 ≤ computeIoU A B ∧ computeIoU A B ≤ 1 :=
  ⟨computeIoU_comm A B, (computeIoU_bounds A B).1, (computeIoU_bounds A B).2⟩

/-- Witness for C6 at the spec's partial-overlap boxes `(0,0,4,4)` and
`(2,2,4,4)`. -/
theorem claim_C6_witness :
    ((1 ≤ (⟨0, 0, 4, 4⟩ : BBox).w ∧ 1 ≤ (⟨0, 0, 4, 4⟩ : BBox).h) ∧
      (1 ≤ (⟨2, 2, 4, 4⟩ : BBox).w ∧ 1 ≤ (⟨2, 2, 4, 4⟩ : BBox).h)) ∧
    computeIoU ⟨0, 0, 4, 4⟩ ⟨2, 2, 4, 4⟩ = computeIoU ⟨2, 2, 4, 4⟩ ⟨0, 0, 4, 4⟩ ∧
    0 ≤ computeIoU ⟨0, 0, 4, 4⟩ ⟨2, 2, 4, 4⟩ ∧ computeIoU ⟨0, 0, 4, 4⟩ ⟨2, 2, 4, 4⟩ ≤ 1 :=
  ⟨⟨by decide, by decide⟩,
    claim_C6_computeIoU_symm_bounded ⟨0, 0, 4, 4⟩ ⟨2, 2, 4, 4⟩ (by decide) (by decide)⟩

/-- C7: if all four corner pixels of `A` lie inside `B` (per
`Point_in_Rectangle` on closed pixel extents), or all four corners of
`B` lie inside `A`, then `computeIoU` returns exactly 1, regardless of
the relative areas of the boxes. -/
theorem claim_C7_computeIoU_full_containment (A B : BBox)
    (hA : 1 ≤ A.w ∧ 1 ≤ A.h) (hB : 1 ≤ B.w ∧ 1 ≤ B.h)
    (hcont :
      (Point_in_Rectangle (A.x, A.y) B && Point_in_Rectangle (A.x, A.y + A.h - 1) B &&
        Point_in_Rectangle (A.x + A.w - 1, A.y) B &&
        Point_in_Rectangle (A.x + A.w - 1, A.y + A.h - 1) B) = true ∨
      (Point_in_Rectangle (B.x, B.y) A && Point_in_Rectangle (B.x, B.y + B.h - 1) A &&
        Point_in_Rectangle (B.x + B.w - 1, B.y) A &&
        Point_in_Rectangle (B.x + B.w - 1, B.y + B.h - 1) A) = true) :
    computeIoU A B = 1 := by
  simp only [computeIoU]
  rcases hcont with h | h <;> simp [h]

/-- Witness for C7 at the spec's containment example: `A = (2,2,3,3)`
fully inside `B = (0,0,10,10)` has IoU exactly 1. -/
theorem claim_C7_witness :
    computeIoU ⟨2, 2, 3, 3⟩ ⟨0, 0, 10, 10⟩ = 1 :=
  claim_C7_computeIoU_full_containment ⟨2, 2, 3, 3⟩ ⟨0, 0, 10, 10⟩ (by decide) (by decide)
    (by decide)

/-- Helper: the greedy loop preserves the pairwise small-IoU invariant
of the accepted list: a candidate is appended only after passing the
IoU test against every accepted box. -/
theorem nmsLoop_pairwise (m : ℚ) :
    ∀ (fuel : Nat) (outTable restTable : List BBox) (N : Option Nat),
      outTable.Pairwise (fun a b => computeIoU a b ≤ m ∧ computeIoU b a ≤ m) →
      (nmsLoop fuel outTable restTable N m).Pairwise
        (fun a b => computeIoU a b ≤ m ∧ computeIoU b a ≤ m) := by
  intro fuel
  induction fuel with
  | zero =>
    intro out rest N hp
    cases rest <;> simpa [nmsLoop] using hp
  | succ n ih =>
    intro out rest N hp
    cases rest with
    | nil => simpa [nmsLoop] using hp
    | cons test tl =>
      simp only [nmsLoop]
      split_ifs with h1 h2
      · apply ih
        rw [List.pairwise_append]
        refine ⟨hp, List.pairwise_singleton _ _, ?_⟩
        simp only [List.all_eq_true, decide_eq_true_eq] at h2
        intro a ha b hb
        rw [List.mem_singleton] at hb
        rw [hb]
        refine ⟨?_, h2 a ha⟩
        rw [computeIoU_comm a test]
        exact h2 a ha
      · exact ih out _ N hp
      · exact hp

theorem nmsLoop_length_le_add :
    ∀ (fuel : Nat) (outTable restTable : List BBox) (N : Option Nat) (m : ℚ),
      (nmsLoop fuel outTable restTable N m).length ≤ outTable.length + restTable.length := by
  intro fuel
  induction fuel with
  | zero =>
    intro out rest N m
    cases rest <;> simp [nmsLoop]
  | succ n ih =>
    intro out rest N m
    cases rest with
    | nil => simp [nmsLoop]
    | cons test tl =>
      simp only [nmsLoop]
      split_ifs with h1 h2
      · calc (nmsLoop n (out ++ [test]) (tl.filter (fun b => decide (b ≠ test))) N m).length
            ≤ (out ++ [test]).length + (tl.filter (fun b => decide (b ≠ test))).length := ih _ _ _ _
          _ ≤ out.length + 1 + tl.length := by
              simp only [List.length_append, List.length_singleton]
              exact Nat.add_le_add_left (List.length_filter_le _ _) _
          _ = out.length + (test :: tl).length := by
              simp only [List.length_cons]
              omega
      · calc (nmsLoop n out (tl.filter (fun b => decide (b ≠ test))) N m).length
            ≤ out.length + (tl.filter (fun b => decide (b ≠ test))).length := ih _ _ _ _
          _ ≤ out.length + tl.length := Nat.add_le_add_left (List.length_filter_le _ _) _
          _ ≤ out.length + (test :: tl).length := by
              simp only [List.length_cons]
              omega
      · simp

theorem nmsLoop_length_le_N :
    ∀ (fuel : Nat) (outTable restTable : List BBox) (n : Nat) (m : ℚ),
      outTable.length ≤ n →
      (nmsLoop fuel outTable restTable (some n) m).length ≤ n := by
  intro fuel
  induction fuel with
  | zero =>
    intro out rest n m hle
    cases rest <;> simpa [nmsLoop] using hle
  | succ k ih =>
    intro out rest n m hle
    cases rest with
    | nil => simpa [nmsLoop] using hle
    | cons test tl =>
      simp only [nmsLoop]
      split_ifs with h1 h2
      · apply ih
        simp only [lenLtN, decide_eq_true_eq] at h1
        simp only [List.length_append, List.length_singleton]
        omega
      · exact ih _ _ _ _ hle
      · exact hle

theorem nmsLoop_mem :
    ∀ (fuel : Nat) (outTable restTable : List BBox) (N : Option Nat) (m : ℚ) (b : BBox),
      b ∈ nmsLoop fuel outTable restTable N m → b ∈ outTable ∨ b ∈ restTable := by
  intro fuel
  induction fuel with
  | zero =>
    intro out rest N m b hb
    cases rest <;> simp_all [nmsLoop]
  | succ k ih =>
    intro out rest N m b hb
    cases rest with
    | nil => simp_all [nmsLoop]
    | cons test tl =>
      simp only [nmsLoop] at hb
      split_ifs at hb with h1 h2
      · rcases ih _ _ _ _ _ hb with hmem | hmem
        · rcases List.mem_append.mp hmem with hmem2 | hmem2
          · exact Or.inl hmem2
          · rw [List.mem_singleton] at hmem2
            subst hmem2
            exact Or.inr (List.mem_cons_self _ _)
        · exact Or.inr (List.mem_cons_of_mem _ (List.mem_of_mem_filter hmem))
      · rcases ih _ _ _ _ _ hb with hmem | hmem
        · exact Or.inl hmem
        · exact Or.inr (List.mem_cons_of_mem _ (List.mem_of_mem_filter hmem))
      · exact Or.inl hb

/-- Helper: the ranking step permutes the table, so it keeps its length. -/
theorem rankStep_length (asc : Bool) (l : List Hit) : (rankStep asc l).length = l.length := by
  cases asc <;> simp [rankStep, List.length_insertionSort]

/-- Helper: membership is invariant under the ranking step. -/
theorem mem_rankStep {h : Hit} (asc : Bool) (l : List Hit) : h ∈ rankStep asc l ↔ h ∈ l := by
  cases asc <;> simp [rankStep, List.mem_insertionSort]

/-- Helper: the threshold filter never grows the table. -/
theorem threshFilterStep_length_le (thr : Option ℚ) (asc : Bool) (l : List Hit) :
    (threshFilterStep thr asc l).length ≤ l.length := by
  cases thr with
  | none => exact le_refl _
  | some t => cases asc <;> simp [threshFilterStep] <;> exact List.length_filter_le _ _

/-- Helper: the threshold filter only drops rows. -/
theorem mem_of_mem_threshFilterStep {h : Hit} {thr : Option ℚ} {asc : Bool} {l : List Hit}
    (hm : h ∈ threshFilterStep thr asc l) : h ∈ l := by
  cases thr with
  | none => exact hm
  | some t =>
    cases asc <;> simp only [threshFilterStep] at hm <;> exact List.mem_of_mem_filter hm

/-- C1: for every candidate hit table, every `expectedCount` (finite
positive or unbounded) and every `maxOverlap` in `[0,1]`, the detection
set returned by `NMS` has size at most `expectedCount` and at most the
input size, and every pair of distinct positions in the output has
`computeIoU` at most `maxOverlap` (stated in both argument orders). -/
theorem claim_C1_NMS_contract (tableHit : List Hit) (scoreThreshold : Option ℚ)
    (sortAscending : Bool) (N_object : Option Nat) (maxOverlap : ℚ)
    (hN : ∀ n, N_object = some n → 1 ≤ n)
    (hm0 : 0 ≤ maxOverlap) (hm1 : maxOverlap ≤ 1)
    (outTable : List BBox)
    (hout : NMS tableHit scoreThreshold sortAscending N_object maxOverlap =
      Except.ok outTable) :
    (∀ n, N_object = some n → outTable.length ≤ n) ∧
    outTable.length ≤ tableHit.length ∧
    outTable.Pairwise (fun a b => computeIoU a b ≤ maxOverlap ∧ computeIoU b a ≤ maxOverlap) := by
  by_cases hemp : tableHit = []
  · rw [NMS, if_pos hemp] at hout
    exact absurd hout (by simp)
  · rw [NMS, if_neg hemp] at hout
    simp only [Except.ok.injEq] at hout
    subst hout
    set sortedTable := rankStep sortAscending (threshFilterStep scoreThreshold sortAscending tableHit) with hsorted
    have hlen : ((sortedTable.take 1).map Hit.bbox).length +
        ((sortedTable.drop 1).map Hit.bbox).length ≤ tableHit.length := by
      simp only [List.length_map, List.length_take, List.length_drop]
      have h1 : sortedTable.length = (threshFilterStep scoreThreshold sortAscending tableHit).length :=
        rankStep_length _ _
      have h2 := threshFilterStep_length_le scoreThreshold sortAscending tableHit
      omega
    refine ⟨?_, ?_, ?_⟩
    · intro n hn
      subst hn
      apply nmsLoop_length_le_N
      have := hN n rfl
      simp only [List.length_map, List.length_take]
      omega
    · exact le_trans (nmsLoop_length_le_add _ _ _ _ _) hlen
    · apply nmsLoop_pairwise
      cases htake : sortedTable with
      | nil => simp
      | cons a t => simp [List.pairwise_singleton]

/-- Witness for C1: a concrete one-hit table with `expectedCount = 1`
and `maxOverlap = 1`. -/
theorem claim_C1_witness :
    ([(⟨0, 0, 2, 2⟩ : BBox)]).length ≤ 1 ∧
    ([(⟨0, 0, 2, 2⟩ : BBox)]).length ≤ ([(⟨"A", ⟨0, 0, 2, 2⟩, 9⟩ : Hit)]).length ∧
    ([(⟨0, 0, 2, 2⟩ : BBox)]).Pairwise
      (fun a b => computeIoU a b ≤ 1 ∧ computeIoU b a ≤ 1) := by
  have hc := claim_C1_NMS_contract [⟨"A", ⟨0, 0, 2, 2⟩, 9⟩] none false (some 1) 1
    (fun n hn => by cases hn; exact le_refl 1) (by norm_num) (le_refl 1) [⟨0, 0, 2, 2⟩] rfl
  exact ⟨hc.1 1 rfl, hc.2.1, hc.2.2⟩

/-- Counterexample for C2 as stated: two single-record hit tables that
differ in their score (and label) fields produce the same `NMS` output,
so the returned records cannot carry the score and label fields of the
input records unchanged - the source projects the table to its `BBox`
column (`threshTable[0:1,1]`) before the loop, and the output rows are
bare bounding boxes. -/
theorem claim_C2_counterexample :
    NMS [⟨"A", ⟨0, 0, 2, 2⟩, 5⟩] none false none 1 =
      NMS [⟨"B", ⟨0, 0, 2, 2⟩, 7⟩] none false none 1 ∧
    (⟨"A", ⟨0, 0, 2, 2⟩, 5⟩ : Hit) ≠ ⟨"B", ⟨0, 0, 2, 2⟩, 7⟩ :=
  ⟨rfl, by decide⟩

/-- C2 amended: every record of the `NMS` output is the bbox field of
one of the input records, unchanged; the templateLabel and score
columns are dropped by the projection to column 1, so the output rows
carry only the bounding box. -/
theorem claim_C2_output_bboxes_from_input (tableHit : List Hit) (scoreThreshold : Option ℚ)
    (sortAscending : Bool) (N_object : Option Nat) (maxOverlap : ℚ) (outTable : List BBox)
    (hout : NMS tableHit scoreThreshold sortAscending N_object maxOverlap =
      Except.ok outTable) :
    ∀ b ∈ outTable, ∃ h ∈ tableHit, b = h.bbox := by
  by_cases hemp : tableHit = []
  · rw [NMS, if_pos hemp] at hout
    exact absurd hout (by simp)
  · rw [NMS, if_neg hemp] at hout
    simp only [Except.ok.injEq] at hout
    subst hout
    intro b hb
    have hmem := nmsLoop_mem _ _ _ _ _ _ hb
    have hsort : b ∈ (rankStep sortAscending
        (threshFilterStep scoreThreshold sortAscending tableHit)).map Hit.bbox := by
      rcases hmem with hm | hm
      · rcases List.mem_map.mp hm with ⟨h, hh, hbb⟩
        exact List.mem_map.mpr ⟨h, (List.take_sublist _ _).mem hh, hbb⟩
      · rcases List.mem_map.mp hm with ⟨h, hh, hbb⟩
        exact List.mem_map.mpr ⟨h, (List.drop_sublist _ _).mem hh, hbb⟩
    rcases List.mem_map.mp hsort with ⟨h, hh, hbb⟩
    exact ⟨h, mem_of_mem_threshFilterStep ((mem_rankStep _ _).mp hh), hbb.symm⟩

/-- Witness for C2 amended at a concrete one-hit table. -/
theorem claim_C2_witness :
    ∃ h ∈ [(⟨"A", ⟨0, 0, 2, 2⟩, 9⟩ : Hit)], (⟨0, 0, 2, 2⟩ : BBox) = h.bbox :=
  claim_C2_output_bboxes_from_input [⟨"A", ⟨0, 0, 2, 2⟩, 9⟩] none false none 1 [⟨0, 0, 2, 2⟩]
    rfl ⟨0, 0, 2, 2⟩ (List.mem_singleton_self _)

/-- C3: evaluation at the failing input.  On an empty input detection
set `NMS` raises `IndexError` (the empty `np.asarray` is 1-D and the
filter and sort lines index it with two indices), both with and without
a score threshold, instead of returning an empty set as the spec
requires; a non-empty input whose rows are all removed by the threshold
filter does return the empty set without error. -/
theorem claim_C3_NMS_empty_input :
    NMS [] (some 5) true none 1 = Except.error "IndexError: too many indices for array" ∧
    NMS [] none false none 1 = Except.error "IndexError: too many indices for array" ∧
    NMS [⟨"A", ⟨0, 0, 2, 2⟩, 1⟩] (some 5) false none 1 = Except.ok [] :=
  ⟨rfl, rfl, rfl⟩

/-- Helper for C4: inserting a hit into a list inserts it before every
later hit of equal score, so each equal-score class keeps its order. -/
theorem filter_score_orderedInsert (a : Hit) (l : List Hit) (s : ℚ) :
    (List.orderedInsert scoreLE a l).filter (fun h => decide (h.score = s)) =
      (a :: l).filter (fun h => decide (h.score = s)) := by
  induction l with
  | nil => rfl
  | cons b t ih =>
    by_cases hab : scoreLE a b
    · simp only [List.orderedInsert, if_pos hab]
    · simp only [List.orderedInsert, if_neg hab]
      by_cases hbs : b.score = s
      · have has : ¬ a.score = s := by
          simp only [scoreLE, not_le] at hab
          intro hcontra
          rw [hcontra, ← hbs] at hab
          exact lt_irrefl _ (lt_of_lt_of_le hab (le_refl _))
        simp [List.filter_cons, hbs, has, ih]
      · simp [List.filter_cons, hbs, ih]

/-- Helper for C4: the modelled stable sort preserves each equal-score
class of the input order. -/
theorem filter_score_insertionSort (l : List Hit) (s : ℚ) :
    (List.insertionSort scoreLE l).filter (fun h => decide (h.score = s)) =
      l.filter (fun h => decide (h.score = s)) := by
  induction l with
  | nil => rfl
  | cons a t ih =>
    simp only [List.insertionSort]
    rw [filter_score_orderedInsert]
    simp only [List.filter_cons]
    rw [ih]

/-- Counterexample for C4 as stated: with `sortAscending = false`, two
equal-scored hits ("A" first, "B" second in the input, with distinct
disjoint boxes) come out of `NMS` with the "B" box first - the
descending ranking is `argsort()[::-1]`, which reverses the relative
order of equal scores, so equal-score ties do not keep their pre-sort
input order. -/
theorem claim_C4_counterexample :
    NMS [⟨"A", ⟨0, 0, 2, 2⟩, 5⟩, ⟨"B", ⟨10, 10, 2, 2⟩, 5⟩] none false none 1 =
      Except.ok [⟨10, 10, 2, 2⟩, ⟨0, 0, 2, 2⟩] ∧
    (⟨0, 0, 2, 2⟩ : BBox) ≠ ⟨10, 10, 2, 2⟩ :=
  ⟨rfl, by decide⟩

/-- C4 amended: the ranking step is a deterministic sort by score with
no randomization; with `sortAscending = true` it is stable (each
equal-score class keeps the pre-sort input order), while with
`sortAscending = false` it is the reverse of the stable ascending sort,
so each equal-score class appears in reversed input order. -/
theorem claim_C4_rankStep_stability (l : List Hit) (s : ℚ) :
    List.Sorted scoreLE (rankStep true l) ∧
    (rankStep true l).filter (fun h => decide (h.score = s)) =
      l.filter (fun h => decide (h.score = s)) ∧
    (rankStep false l).filter (fun h => decide (h.score = s)) =
      (l.filter (fun h => decide (h.score = s))).reverse := by
  have htrue : rankStep true l = List.insertionSort scoreLE l := rfl
  have hfalse : rankStep false l = (List.insertionSort scoreLE l).reverse := rfl
  refine ⟨?_, ?_, ?_⟩
  · rw [htrue]
    exact List.sorted_insertionSort scoreLE l
  · rw [htrue]
    exact filter_score_insertionSort l s
  · rw [hfalse, List.filter_reverse, filter_score_insertionSort]

/-- C5: with a threshold and `sortAscending = true` a detection is kept
by the filter step iff its score is not strictly above the threshold;
with `sortAscending = false` iff its score is not strictly below it;
with no threshold the table is kept unchanged. -/
theorem claim_C5_threshold_filter (tableHit : List Hit) (thr : ℚ) (h : Hit) (asc : Bool) :
    (h ∈ threshFilterStep (some thr) true tableHit ↔ h ∈ tableHit ∧ ¬ thr < h.score) ∧
    (h ∈ threshFilterStep (some thr) false tableHit ↔ h ∈ tableHit ∧ ¬ h.score < thr) ∧
    threshFilterStep none asc tableHit = tableHit := by
  refine ⟨?_, ?_, rfl⟩
  · simp [threshFilterStep, List.mem_filter, not_lt]
  · simp [threshFilterStep, List.mem_filter, not_lt]

/-- C8: evaluation at the failing input.  The output rows of `NMS` are
bare bounding boxes (the source projects `threshTable[0:1,1]`), with no
score column, so feeding the output back into `NMS` in the source
indexes a 1-D array with two indices and raises `IndexError` instead of
returning the same set. -/
theorem claim_C8_NMS_output_shape :
    NMS [⟨"A", ⟨0, 0, 2, 2⟩, 9⟩] none false none 1 = Except.ok [⟨0, 0, 2, 2⟩] := rfl

/-- Helper: cropping to a search box never changes the dtype. -/
theorem cropImage_dtype (image : NpImage) (searchBox : Option (Nat × Nat × Nat × Nat)) :
    (cropImage image searchBox).1.dtype = image.dtype := by
  cases searchBox with
  | none => rfl
  | some t =>
    obtain ⟨a, b, c, d⟩ := t
    rfl

/-- Helper: for a method outside 1, 3, 5 no branch of the peak
selection assigns the peak list, so it fails. -/
theorem peaksSelect_bad_method (minMaxLoc : List (List ℚ) → ℚ × ℚ × (Nat × Nat) × (Nat × Nat))
    (find1D : List ℚ → ℚ → List Nat) (peakLocalMax : List (List ℚ) → ℚ → List (Nat × Nat))
    (corrMap : List (List ℚ)) (method : Nat) (N_object : Option Nat) (score_threshold : ℚ)
    (hm1 : method ≠ 1) (hm3 : method ≠ 3) (hm5 : method ≠ 5) :
    peaksSelect minMaxLoc find1D peakLocalMax corrMap method N_object score_threshold =
      Except.error "NameError: name Peaks is not defined" := by
  unfold peaksSelect
  have hmethod : ¬(method = 3 ∨ method = 5) := by tauto
  split_ifs <;> tauto

/-- Helper: Except bind on a success. -/
theorem exceptBind_ok {α β : Type} (v : α) (f : α → Except String β) :
    (Except.ok v >>= f : Except String β) = f v := rfl

/-- Helper: a template-processing step for a method outside 1, 3, 5
fails with the unbound `Peaks` error whenever the dtype validation of
`computeScoreMap` passes. -/
theorem processTemplate_bad_method
    (matchTemplate : NpImage → NpImage → Nat → List (List ℚ))
    (minMaxLoc : List (List ℚ) → ℚ × ℚ × (Nat × Nat) × (Nat × Nat))
    (find1D : List ℚ → ℚ → List Nat) (peakLocalMax : List (List ℚ) → ℚ → List (Nat × Nat))
    (img : NpImage) (x0 y0 : Nat) (method : Nat) (N_object : Option Nat) (thr : ℚ)
    (listHit : List Hit) (tpl : String × NpImage)
    (hm1 : method ≠ 1) (hm3 : method ≠ 3) (hm5 : method ≠ 5)
    (ht : tpl.2.dtype ≠ Dtype.f64) (hi : img.dtype ≠ Dtype.f64) :
    processTemplate matchTemplate minMaxLoc find1D peakLocalMax img x0 y0 method N_object thr
      listHit tpl = Except.error "NameError: name Peaks is not defined" := by
  unfold processTemplate
  rw [computeScoreMap, if_neg (not_or.mpr ⟨ht, hi⟩)]
  by_cases hu : tpl.2.dtype = Dtype.u8 ∧ img.dtype = Dtype.u8
  · rw [if_neg (not_not_intro hu), exceptBind_ok,
      peaksSelect_bad_method _ _ _ _ _ _ _ hm1 hm3 hm5]
    rfl
  · rw [if_pos hu, exceptBind_ok, peaksSelect_bad_method _ _ _ _ _ _ _ hm1 hm3 hm5]
    rfl

/-- C10: for every method outside 1, 3, 5 and every non-empty template
list (with inputs passing the earlier validations), `findMatches` and
`matchTemplates` do not return a detection set: the peak-list variable
is never assigned on any branch and the call fails with the Python
unbound-variable `NameError`. -/
theorem claim_C10_bad_method_unbound
    (matchTemplate : NpImage → NpImage → Nat → List (List ℚ))
    (minMaxLoc : List (List ℚ) → ℚ × ℚ × (Nat × Nat) × (Nat × Nat))
    (find1D : List ℚ → ℚ → List Nat) (peakLocalMax : List (List ℚ) → ℚ → List (Nat × Nat))
    (name : String) (template : NpImage) (rest : List (String × NpImage)) (image : NpImage)
    (method : Nat) (N_object : Option Nat) (score_threshold : ℚ) (maxOverlap : ℚ)
    (searchBox : Option (Nat × Nat × Nat × Nat))
    (hm1 : method ≠ 1) (hm3 : method ≠ 3) (hm5 : method ≠ 5)
    (hN : ∀ n, N_object = some n → 1 ≤ n)
    (ht : template.dtype ≠ Dtype.f64) (hi : image.dtype ≠ Dtype.f64)
    (ho0 : 0 ≤ maxOverlap) (ho1 : maxOverlap ≤ 1) :
    findMatches matchTemplate minMaxLoc find1D peakLocalMax ((name, template) :: rest) image
      method N_object score_threshold searchBox =
      Except.error "NameError: name Peaks is not defined" ∧
    matchTemplates matchTemplate minMaxLoc find1D peakLocalMax ((name, template) :: rest) image
      method N_object score_threshold maxOverlap searchBox =
      Except.error "NameError: name Peaks is not defined" := by
  have hfind : findMatches matchTemplate minMaxLoc find1D peakLocalMax
      ((name, template) :: rest) image method N_object score_threshold searchBox =
      Except.error "NameError: name Peaks is not defined" := by
    unfold findMatches
    rw [if_neg (by
      cases N_object with
      | none => simp
      | some n =>
        have hge := hN n rfl
        simp only [decide_eq_true_eq]
        omega)]
    rw [List.foldlM_cons,
      processTemplate_bad_method _ _ _ _ _ _ _ _ _ _ _ _ hm1 hm3 hm5 ht
        (by rw [cropImage_dtype]; exact hi)]
    rfl
  refine ⟨hfind, ?_⟩
  unfold matchTemplates
  rw [if_neg (by push_neg; exact ⟨ho0, ho1⟩), hfind]

/-- Witness for C10 at method 0 with a concrete template and image. -/
theorem claim_C10_witness :
    findMatches (fun _ _ _ => [[(7 : ℚ)]]) (fun _ => (0, 0, (0, 0), (0, 0)))
      (fun _ _ => []) (fun _ _ => []) [("T", ⟨Dtype.u8, 2, 2⟩)] ⟨Dtype.u8, 4, 4⟩ 0 none 0 none =
      Except.error "NameError: name Peaks is not defined" ∧
    matchTemplates (fun _ _ _ => [[(7 : ℚ)]]) (fun _ => (0, 0, (0, 0), (0, 0)))
      (fun _ _ => []) (fun _ _ => []) [("T", ⟨Dtype.u8, 2, 2⟩)] ⟨Dtype.u8, 4, 4⟩ 0 none 0 0
      none = Except.error "NameError: name Peaks is not defined" :=
  claim_C10_bad_method_unbound (fun _ _ _ => [[(7 : ℚ)]]) (fun _ => (0, 0, (0, 0), (0, 0)))
    (fun _ _ => []) (fun _ _ => []) "T" ⟨Dtype.u8, 2, 2⟩ [] ⟨Dtype.u8, 4, 4⟩ 0 none 0 0 none
    (by decide) (by decide) (by decide) (fun n hn => by cases hn) (by decide) (by decide)
    (le_refl 0) (by norm_num)

/-- Counterexample for C9 as stated: a 5 by 5 template against a 3 by 3
search image (the template exceeds the image along both axes) does not
make the pipeline fail with a shape-mismatch error before the external
similarity function is invoked: no shape validation exists anywhere in
the pipeline, the injected external function is invoked (its returned
surface is visible in the output), and `findMatches` returns an
ordinary detection set. -/
theorem claim_C9_counterexample :
    findMatches (fun _ _ _ => [[(7 : ℚ)]]) (fun _ => (0, 0, (0, 0), (0, 0)))
      (fun _ _ => []) (fun _ _ => []) [("T", ⟨Dtype.u8, 5, 5⟩)] ⟨Dtype.u8, 3, 3⟩ 3 none 0
      none = Except.ok [⟨"T", ⟨0, 0, 5, 5⟩, 7⟩] := rfl

/-- C9 amended: the pipeline performs no shape validation at all.
`computeScoreMap` checks only for 64-bit dtypes; with any other dtypes
it always invokes the external similarity function and returns its
value, even when the template is strictly larger than the search image
along an axis, and `findMatches` adds no validation of its own before
its per-template loop. -/
theorem claim_C9_no_shape_validation
    (matchTemplate : NpImage → NpImage → Nat → List (List ℚ))
    (template image : NpImage) (method : Nat)
    (ht : template.dtype ≠ Dtype.f64) (hi : image.dtype ≠ Dtype.f64)
    (hbig : image.rows < template.rows ∨ image.cols < template.cols) :
    computeScoreMap matchTemplate template image method =
      Except.ok (if template.dtype = Dtype.u8 ∧ image.dtype = Dtype.u8 then
        matchTemplate template image method
      else matchTemplate ⟨Dtype.f32, template.rows, template.cols⟩
        ⟨Dtype.f32, image.rows, image.cols⟩ method) := by
  rw [computeScoreMap, if_neg (not_or.mpr ⟨ht, hi⟩)]
  by_cases hu : template.dtype = Dtype.u8 ∧ image.dtype = Dtype.u8
  · rw [if_neg (not_not_intro hu), if_pos hu]
  · rw [if_pos hu, if_neg hu]

/-- Witness for C9 amended: the oversized 5 by 5 template against the
3 by 3 image reaches the external function, whose surface is returned. -/
theorem claim_C9_witness :
    (⟨Dtype.u8, 3, 3⟩ : NpImage).rows < (⟨Dtype.u8, 5, 5⟩ : NpImage).rows ∧
    computeScoreMap (fun _ _ _ => [[(7 : ℚ)]]) ⟨Dtype.u8, 5, 5⟩ ⟨Dtype.u8, 3, 3⟩ 3 =
      Except.ok [[(7 : ℚ)]] :=
  ⟨by decide,
    (claim_C9_no_shape_validation (fun _ _ _ => [[(7 : ℚ)]]) ⟨Dtype.u8, 5, 5⟩ ⟨Dtype.u8, 3, 3⟩
        3 (by decide) (by decide) (Or.inl (by decide))).trans (by rfl)⟩
